import Mathlib

/-!
Shallow embedding of the product-inventory HTTP service in `main.py`
(FastAPI + SQLAlchemy over SQLite), together with theorems settling the
specification's claims about it.

Modelling conventions:
* Python floats (the `price` column and the `price_gte` query parameter)
  are modelled as rational numbers; Python ints as `Int`; the surrogate
  primary key as `Nat`.
* The table `products` is a `List Product`; each HTTP operation maps the
  current table to a response (`Outcome`) together with the table after
  the request (rollback paths return the table unchanged).
* pydantic request-model validation (which FastAPI runs before the handler
  and answers 422 for) is a separate function composed in front of each
  handler, mirroring the `ProductCreate` / `ProductUpdate` field constraints.
* A `ProductUpdate` field is `Option (Option a)`: `none` means the field was
  absent from the body (pydantic `exclude_unset` drops it), `some none`
  means an explicit JSON null (pydantic v1 allows it because the field
  default is `None` and skips the gt/ge validators on `None`), and
  `some (some v)` means the field was set to `v`.
* An uncaught Python exception escaping a handler is the `Outcome.crash`
  constructor: `update_product` compares `update_data['price'] <= 0` which
  raises `TypeError` when the supplied value is an explicit null, and the
  handler catches only `IntegrityError` and `ValidationError`.
-/

namespace InventoryApi

/-- A stored row of the `products` table (SQLAlchemy model `Product`).
`description` and `category` are nullable columns; `name`, `price`,
`quantity` are NOT NULL, and `name` carries UNIQUE constraint
`uq_product_name`. -/
structure Product where
  id : Nat
  name : String
  price : Rat
  quantity : Int
  description : Option String
  category : Option String
deriving Repr, DecidableEq

/-- The request body of POST /products/ (pydantic model `ProductCreate`). -/
structure ProductCreate where
  name : String
  price : Rat
  quantity : Int
  description : Option String
  category : Option String
deriving Repr, DecidableEq

/-- The request body of PUT /products/:id (pydantic model `ProductUpdate`).
`none` = field absent, `some none` = field explicitly null,
`some (some v)` = field set to `v`. -/
structure ProductUpdate where
  name : Option (Option String)
  price : Option (Option Rat)
  quantity : Option (Option Int)
  description : Option (Option String)
  category : Option (Option String)
deriving Repr, DecidableEq

/-- The observable result of one HTTP request: a 200 payload, an HTTP error
(status code and detail message), or an uncaught exception escaping the
handler (an unhandled fault, surfaced by the framework as a 500). -/
inductive Outcome (α : Type) where
  | ok (value : α)
  | err (status : Nat) (detail : String)
  | crash (msg : String)
deriving Repr, DecidableEq

/-- pydantic validation of a `ProductCreate` body: `price` has `gt=0` and
`quantity` has `ge=0`; violations make FastAPI answer 422 before the
handler runs. -/
def createPayloadOk (p : ProductCreate) : Bool :=
  decide (0 < p.price) && decide (0 ≤ p.quantity)

/-- pydantic validation of a `ProductUpdate` body: `gt=0` / `ge=0` apply only
to supplied non-null values (pydantic v1 skips the validators on `None`). -/
def updatePayloadOk (u : ProductUpdate) : Bool :=
  (match u.price with
   | some (some p) => decide (0 < p)
   | _ => true)
  && (match u.quantity with
      | some (some q) => decide (0 ≤ q)
      | _ => true)

/-- SQLite assigns the inserted row the next rowid: one more than the current
maximum id of the table. -/
def newId (rows : List Product) : Nat :=
  (rows.map Product.id).foldr max 0 + 1

/-- Handler `create_product`: reject a falsy (empty) name with 400, then
insert; a UNIQUE(name) violation at commit raises IntegrityError, which is
rolled back and answered with 400. -/
def create_product (p : ProductCreate) (rows : List Product) :
    Outcome Product × List Product :=
  if p.name = "" then
    (.err 400 "Product name is required", rows)
  else if rows.any (fun r => r.name == p.name) then
    (.err 400 "Product creation failed due to duplicate name.", rows)
  else
    (.ok ⟨newId rows, p.name, p.price, p.quantity, p.description, p.category⟩,
     rows ++ [⟨newId rows, p.name, p.price, p.quantity, p.description, p.category⟩])

/-- The full POST /products/ operation: framework validation, then handler. -/
def post_product (p : ProductCreate) (rows : List Product) :
    Outcome Product × List Product :=
  if createPayloadOk p then create_product p rows
  else (.err 422 "validation error", rows)

/-- Handler `get_product`: point lookup by primary key. -/
def get_product (pid : Nat) (rows : List Product) :
    Outcome Product × List Product :=
  match rows.find? (fun r => r.id == pid) with
  | none => (.err 404 "Product not found", rows)
  | some r => (.ok r, rows)

/-- Replace the first row whose id is `pid` (the object `.first()` returned
and the handler mutated in place). -/
def replaceById (pid : Nat) (r : Product) : List Product → List Product
  | [] => []
  | x :: xs => if x.id = pid then r :: xs else x :: replaceById pid r xs

/-- The row after `setattr(db_product, key, value)` over
`product.dict(exclude_unset=True)`: supplied fields overwrite, absent fields
keep their stored values. An explicitly null `name` is handled before this
point (NOT NULL violation at commit); explicitly null `price`/`quantity`
never reach this point (the handler crashes first). -/
def applyUpdate (r : Product) (u : ProductUpdate) : Product where
  id := r.id
  name := match u.name with | some (some n) => n | _ => r.name
  price := match u.price with | some (some p) => p | _ => r.price
  quantity := match u.quantity with | some (some q) => q | _ => r.quantity
  description := match u.description with | some d => d | none => r.description
  category := match u.category with | some c => c | none => r.category

/-- `db.commit()` on the mutated row: a NOT NULL violation (name explicitly
null) or a UNIQUE(name) violation against another row raises IntegrityError;
the handler rolls back and answers 400. -/
def commit_update (pid : Nat) (u : ProductUpdate) (r : Product)
    (rows : List Product) : Outcome Product × List Product :=
  if u.name = some none then
    (.err 400 "Product update failed due to integrity error.", rows)
  else if rows.any (fun x => x.id != pid && x.name == (applyUpdate r u).name) then
    (.err 400 "Product update failed due to integrity error.", rows)
  else
    (.ok (applyUpdate r u), replaceById pid (applyUpdate r u) rows)

/-- The handler line `if 'quantity' in update_data and update_data['quantity'] < 0`:
an explicit null quantity raises an uncaught TypeError. -/
def quantity_check (pid : Nat) (u : ProductUpdate) (r : Product)
    (rows : List Product) : Outcome Product × List Product :=
  match u.quantity with
  | some none => (.crash "TypeError: comparison of NoneType and int", rows)
  | some (some q) =>
    if q < 0 then (.err 400 "Quantity must be greater than or equal to 0", rows)
    else commit_update pid u r rows
  | none => commit_update pid u r rows

/-- Handler `update_product`: look up the target, run the in-handler price and
quantity checks (`update_data['price'] <= 0` raises an uncaught TypeError on
an explicit null), apply the supplied fields, commit. -/
def update_product (pid : Nat) (u : ProductUpdate) (rows : List Product) :
    Outcome Product × List Product :=
  match rows.find? (fun r => r.id == pid) with
  | none => (.err 404 "Product not found", rows)
  | some r =>
    match u.price with
    | some none => (.crash "TypeError: comparison of NoneType and int", rows)
    | some (some p) =>
      if p ≤ 0 then (.err 400 "Price must be greater than 0", rows)
      else quantity_check pid u r rows
    | none => quantity_check pid u r rows

/-- The full PUT /products/:id operation: framework validation, then handler. -/
def put_product (pid : Nat) (u : ProductUpdate) (rows : List Product) :
    Outcome Product × List Product :=
  if updatePayloadOk u then update_product pid u rows
  else (.err 422 "validation error", rows)

/-- Remove the first row whose id is `pid` (the object `.first()` returned
and `db.delete` removed). -/
def removeById (pid : Nat) : List Product → List Product
  | [] => []
  | x :: xs => if x.id = pid then xs else x :: removeById pid xs

/-- Handler `delete_product`. -/
def delete_product (pid : Nat) (rows : List Product) :
    Outcome String × List Product :=
  match rows.find? (fun r => r.id == pid) with
  | none => (.err 404 "Product not found", rows)
  | some _ => (.ok "Product deleted successfully", removeById pid rows)

/-- The full GET /products/ operation. The query parameter has `ge=0`, so a
negative filter is answered 422 by the framework; the handler returns the
filtered rows, with an explicit empty list when nothing matches. -/
def list_products (priceGte : Option Rat) (rows : List Product) :
    Outcome (List Product) × List Product :=
  match priceGte with
  | some x =>
    if x < 0 then (.err 422 "validation error", rows)
    else
      let ps := rows.filter (fun r => decide (x ≤ r.price))
      if ps.isEmpty then (.ok [], rows) else (.ok ps, rows)
  | none =>
    if rows.isEmpty then (.ok [], rows) else (.ok rows, rows)

/-- States of the table reachable from the empty table through the
state-changing HTTP operations. -/
inductive Reachable : List Product → Prop where
  | init : Reachable []
  | create (p : ProductCreate) {s : List Product} :
      Reachable s → Reachable (post_product p s).2
  | update (pid : Nat) (u : ProductUpdate) {s : List Product} :
      Reachable s → Reachable (put_product pid u s).2
  | delete (pid : Nat) {s : List Product} :
      Reachable s → Reachable (delete_product pid s).2

/-- Every stored row has a positive price and a non-negative quantity. -/
def pricesOk (rows : List Product) : Prop :=
  ∀ r ∈ rows, 0 < r.price ∧ 0 ≤ r.quantity

/-- No two stored rows share an id. -/
def idsUnique (rows : List Product) : Prop :=
  rows.Pairwise (fun a b => a.id ≠ b.id)

/-- No two stored rows share a name. -/
def namesUnique (rows : List Product) : Prop :=
  rows.Pairwise (fun a b => a.name ≠ b.name)

/-- The storage invariant the operations actually maintain. -/
def goodRows (rows : List Product) : Prop :=
  pricesOk rows ∧ idsUnique rows ∧ namesUnique rows

/-! ### Helper lemmas about the storage primitives -/

theorem mem_replaceById {pid : Nat} {r x : Product} {rows : List Product}
    (h : x ∈ replaceById pid r rows) : x = r ∨ x ∈ rows := by
  induction rows with
  | nil => simp [replaceById] at h
  | cons y ys ih =>
    by_cases hy : y.id = pid
    · simp only [replaceById, if_pos hy, List.mem_cons] at h
      rcases h with h | h
      · exact Or.inl h
      · exact Or.inr (List.mem_cons_of_mem _ h)
    · simp only [replaceById, if_neg hy, List.mem_cons] at h
      rcases h with h | h
      · exact Or.inr (by simp [h])
      · rcases ih h with h2 | h2
        · exact Or.inl h2
        · exact Or.inr (List.mem_cons_of_mem _ h2)

theorem mem_replaceById_of_ne {pid : Nat} {r x : Product} {rows : List Product}
    (hx : x ∈ rows) (hne : x.id ≠ pid) : x ∈ replaceById pid r rows := by
  induction rows with
  | nil => simp at hx
  | cons y ys ih =>
    rcases List.mem_cons.mp hx with rfl | hx2
    · simp only [replaceById, if_neg hne]
      exact List.mem_cons_self _ _
    · by_cases hy : y.id = pid
      · simp [replaceById, if_pos hy, hx2]
      · simp only [replaceById, if_neg hy, List.mem_cons]
        exact Or.inr (ih hx2)

theorem idsUnique_replaceById {pid : Nat} {r : Product} {rows : List Product}
    (hids : idsUnique rows) (hr : r.id = pid) :
    idsUnique (replaceById pid r rows) := by
  induction rows with
  | nil => simpa [replaceById] using hids
  | cons y ys ih =>
    rcases List.pairwise_cons.mp hids with ⟨hhead, htail⟩
    by_cases hy : y.id = pid
    · simp only [replaceById, if_pos hy]
      refine List.pairwise_cons.mpr ⟨?_, htail⟩
      intro z hz
      rw [hr, ← hy]
      exact hhead z hz
    · simp only [replaceById, if_neg hy]
      refine List.pairwise_cons.mpr ⟨?_, ih htail⟩
      intro z hz
      rcases mem_replaceById hz with rfl | hz2
      · rw [hr]; exact hy
      · exact hhead z hz2

theorem namesUnique_replaceById {pid : Nat} {r : Product} {rows : List Product}
    (hids : idsUnique rows) (hnames : namesUnique rows) (hr : r.id = pid)
    (hcol : ∀ x ∈ rows, x.id ≠ pid → x.name ≠ r.name) :
    namesUnique (replaceById pid r rows) := by
  induction rows with
  | nil => simpa [replaceById] using hnames
  | cons y ys ih =>
    rcases List.pairwise_cons.mp hids with ⟨hidh, hidt⟩
    rcases List.pairwise_cons.mp hnames with ⟨hnh, hnt⟩
    by_cases hy : y.id = pid
    · simp only [replaceById, if_pos hy]
      refine List.pairwise_cons.mpr ⟨?_, hnt⟩
      intro z hz
      have hzid : z.id ≠ pid := by rw [← hy]; exact fun h => hidh z hz h.symm
      exact fun h => hcol z (List.mem_cons_of_mem _ hz) hzid h.symm
    · simp only [replaceById, if_neg hy]
      refine List.pairwise_cons.mpr ⟨?_, ?_⟩
      · intro z hz
        rcases mem_replaceById hz with rfl | hz2
        · exact hcol y (List.mem_cons_self _ _) hy
        · exact hnh z hz2
      · exact ih hidt hnt fun x hx => hcol x (List.mem_cons_of_mem _ hx)

theorem removeById_sublist (pid : Nat) (rows : List Product) :
    List.Sublist (removeById pid rows) rows := by
  induction rows with
  | nil => simp [removeById]
  | cons y ys ih =>
    by_cases hy : y.id = pid
    · simpa only [removeById, if_pos hy] using List.sublist_cons_self y ys
    · simpa only [removeById, if_neg hy] using ih.cons₂ y

theorem removeById_id_ne {pid : Nat} {x : Product} {rows : List Product}
    (hids : idsUnique rows) (hx : x ∈ removeById pid rows) : x.id ≠ pid := by
  induction rows with
  | nil => simp [removeById] at hx
  | cons y ys ih =>
    rcases List.pairwise_cons.mp hids with ⟨hhead, htail⟩
    by_cases hy : y.id = pid
    · rw [removeById, if_pos hy] at hx
      intro hxe
      exact hhead x hx (by rw [hy, hxe])
    · rw [removeById, if_neg hy] at hx
      rcases List.mem_cons.mp hx with rfl | hx2
      · exact hy
      · exact ih htail hx2

theorem le_foldr_max {l : List Nat} {a : Nat} (h : a ∈ l) :
    a ≤ l.foldr max 0 := by
  induction l with
  | nil => simp at h
  | cons b l ih =>
    rcases List.mem_cons.mp h with rfl | h2
    · exact le_max_left _ _
    · exact (ih h2).trans (le_max_right _ _)

theorem id_lt_newId {r : Product} {rows : List Product} (h : r ∈ rows) :
    r.id < newId rows :=
  Nat.lt_succ_of_le (le_foldr_max (List.mem_map_of_mem Product.id h))

theorem find?_id_eq {pid : Nat} {r : Product} {rows : List Product}
    (h : rows.find? (fun x => x.id == pid) = some r) : r.id = pid ∧ r ∈ rows :=
  ⟨by simpa using List.find?_some h, List.mem_of_find?_eq_some h⟩

theorem find?_of_mem_id {pid : Nat} {r : Product} {rows : List Product}
    (hids : idsUnique rows) (hr : r ∈ rows) (hid : r.id = pid) :
    rows.find? (fun x => x.id == pid) = some r := by
  induction rows with
  | nil => simp at hr
  | cons y ys ih =>
    rcases List.pairwise_cons.mp hids with ⟨hhead, htail⟩
    rcases List.mem_cons.mp hr with rfl | hr2
    · exact List.find?_cons_of_pos _ (by simp [hid])
    · have hy : ¬ ((fun x => x.id == pid) y = true) := by
        simp only [beq_iff_eq]
        rw [← hid]
        exact hhead r hr2
      rw [List.find?_cons_of_neg ys hy]
      exact ih htail hr2

theorem countP_name_of_mem {r : Product} {rows : List Product}
    (hnames : namesUnique rows) (hr : r ∈ rows) :
    rows.countP (fun x => x.name == r.name) = 1 := by
  induction rows with
  | nil => simp at hr
  | cons y ys ih =>
    rcases List.pairwise_cons.mp hnames with ⟨hhead, htail⟩
    rcases List.mem_cons.mp hr with rfl | hr2
    · rw [List.countP_cons, if_pos (by simp)]
      have : ys.countP (fun x => x.name == r.name) = 0 :=
        List.countP_eq_zero.mpr fun a ha => by
          simpa using fun h => hhead a ha h.symm
      omega
    · rw [List.countP_cons, if_neg (by simpa using hhead r hr2), ih htail hr2]

/-! ### Preservation of the storage invariant -/

theorem commit_update_preserves {pid : Nat} {u : ProductUpdate} {r : Product}
    {rows : List Product} (hg : goodRows rows) (hrmem : r ∈ rows)
    (hrid : r.id = pid) (hp : 0 < (applyUpdate r u).price)
    (hq : 0 ≤ (applyUpdate r u).quantity) :
    goodRows (commit_update pid u r rows).2 := by
  rcases hg with ⟨hpr, hids, hnm⟩
  unfold commit_update
  by_cases hn : u.name = some none
  · simp only [if_pos hn]
    exact ⟨hpr, hids, hnm⟩
  · simp only [if_neg hn]
    by_cases hcol :
        rows.any (fun x => x.id != pid && x.name == (applyUpdate r u).name) = true
    · simp only [if_pos hcol]
      exact ⟨hpr, hids, hnm⟩
    · simp only [if_neg hcol]
      have hid2 : (applyUpdate r u).id = pid := hrid
      have hcolf : ∀ x ∈ rows, x.id ≠ pid → x.name ≠ (applyUpdate r u).name := by
        have h2 := List.any_eq_false.mp (Bool.not_eq_true _ ▸ hcol)
        intro x hx hxid
        have := h2 x hx
        simpa [hxid] using this
      refine ⟨?_, ?_, ?_⟩
      · intro x hx
        rcases mem_replaceById hx with rfl | hx2
        · exact ⟨hp, hq⟩
        · exact hpr x hx2
      · exact idsUnique_replaceById hids hid2
      · exact namesUnique_replaceById hids hnm hid2 hcolf

theorem quantity_check_preserves {pid : Nat} {u : ProductUpdate} {r : Product}
    {rows : List Product} (hg : goodRows rows) (hrmem : r ∈ rows)
    (hrid : r.id = pid) (hp : 0 < (applyUpdate r u).price) :
    goodRows (quantity_check pid u r rows).2 := by
  unfold quantity_check
  cases hqe : u.quantity with
  | none =>
    have hq : 0 ≤ (applyUpdate r u).quantity := by
      have : (applyUpdate r u).quantity = r.quantity := by simp [applyUpdate, hqe]
      rw [this]
      exact (hg.1 r hrmem).2
    exact commit_update_preserves hg hrmem hrid hp hq
  | some o =>
    cases o with
    | none => exact hg
    | some q =>
      by_cases hql : q < 0
      · simp only [if_pos hql]
        exact hg
      · simp only [if_neg hql]
        have hq : 0 ≤ (applyUpdate r u).quantity := by
          have : (applyUpdate r u).quantity = q := by simp [applyUpdate, hqe]
          rw [this]
          omega
        exact commit_update_preserves hg hrmem hrid hp hq

theorem update_product_preserves (pid : Nat) (u : ProductUpdate)
    (rows : List Product) (hg : goodRows rows) :
    goodRows (update_product pid u rows).2 := by
  unfold update_product
  cases hfind : rows.find? (fun x => x.id == pid) with
  | none => exact hg
  | some r =>
    obtain ⟨hrid, hrmem⟩ := find?_id_eq hfind
    cases hpe : u.price with
    | none =>
      have hp : 0 < (applyUpdate r u).price := by
        have : (applyUpdate r u).price = r.price := by simp [applyUpdate, hpe]
        rw [this]
        exact (hg.1 r hrmem).1
      exact quantity_check_preserves hg hrmem hrid hp
    | some o =>
      cases o with
      | none => exact hg
      | some p =>
        by_cases hple : p ≤ 0
        · simp only [if_pos hple]
          exact hg
        · simp only [if_neg hple]
          have hp : 0 < (applyUpdate r u).price := by
            have : (applyUpdate r u).price = p := by simp [applyUpdate, hpe]
            rw [this]
            exact lt_of_not_le hple
          exact quantity_check_preserves hg hrmem hrid hp

theorem put_product_preserves (pid : Nat) (u : ProductUpdate)
    (rows : List Product) (hg : goodRows rows) :
    goodRows (put_product pid u rows).2 := by
  unfold put_product
  by_cases hok : updatePayloadOk u = true
  · simp only [if_pos hok]
    exact update_product_preserves pid u rows hg
  · simp only [if_neg hok]
    exact hg

theorem post_product_preserves (p : ProductCreate) (rows : List Product)
    (hg : goodRows rows) : goodRows (post_product p rows).2 := by
  unfold post_product
  by_cases hok : createPayloadOk p = true
  · simp only [if_pos hok]
    unfold create_product
    by_cases hname : p.name = ""
    · simp only [if_pos hname]
      exact hg
    · simp only [if_neg hname]
      by_cases hdup : rows.any (fun r => r.name == p.name) = true
      · simp only [if_pos hdup]
        exact hg
      · simp only [if_neg hdup]
        obtain ⟨hpp, hpq⟩ : 0 < p.price ∧ 0 ≤ p.quantity := by
          unfold createPayloadOk at hok
          simpa using hok
        have hdupf : ∀ x ∈ rows, x.name ≠ p.name := by
          have h2 := List.any_eq_false.mp (Bool.not_eq_true _ ▸ hdup)
          intro x hx
          simpa using h2 x hx
        rcases hg with ⟨hpr, hids, hnm⟩
        refine ⟨?_, ?_, ?_⟩
        · intro x hx
          rcases List.mem_append.mp hx with hx2 | hx2
          · exact hpr x hx2
          · have hx3 : x = ⟨newId rows, p.name, p.price, p.quantity,
                p.description, p.category⟩ := by simpa using hx2
            rw [hx3]
            exact ⟨hpp, hpq⟩
        · refine List.pairwise_append.mpr ⟨hids, by simp, ?_⟩
          intro a ha b hb
          have hb2 : b = ⟨newId rows, p.name, p.price, p.quantity,
              p.description, p.category⟩ := by simpa using hb
          rw [hb2]
          exact Nat.ne_of_lt (id_lt_newId ha)
        · refine List.pairwise_append.mpr ⟨hnm, by simp, ?_⟩
          intro a ha b hb
          have hb2 : b = ⟨newId rows, p.name, p.price, p.quantity,
              p.description, p.category⟩ := by simpa using hb
          rw [hb2]
          exact hdupf a ha
  · simp only [if_neg hok]
    exact hg

theorem delete_product_preserves (pid : Nat) (rows : List Product)
    (hg : goodRows rows) : goodRows (delete_product pid rows).2 := by
  unfold delete_product
  cases hfind : rows.find? (fun x => x.id == pid) with
  | none => exact hg
  | some r =>
    rcases hg with ⟨hpr, hids, hnm⟩
    have hsub := removeById_sublist pid rows
    exact ⟨fun x hx => hpr x (hsub.subset hx),
      List.Pairwise.sublist hsub hids, List.Pairwise.sublist hsub hnm⟩

/-- Every reachable table satisfies the storage invariant actually maintained
by the code: positive prices, non-negative quantities, unique ids, unique
names. -/
theorem reachable_good {rows : List Product} (h : Reachable rows) :
    goodRows rows := by
  induction h with
  | init => exact ⟨by simp [pricesOk], by simp [idsUnique], by simp [namesUnique]⟩
  | create p hs ih => exact post_product_preserves p _ ih
  | update pid u hs ih => exact put_product_preserves pid u _ ih
  | delete pid hs ih => exact delete_product_preserves pid _ ih

/-! ### Characterizing successful updates -/

theorem replaceById_length (pid : Nat) (r : Product) (rows : List Product) :
    (replaceById pid r rows).length = rows.length := by
  induction rows with
  | nil => rfl
  | cons y ys ih =>
    by_cases hy : y.id = pid
    · simp [replaceById, if_pos hy]
    · simp [replaceById, if_neg hy, ih]

theorem put_product_ok {pid : Nat} {u : ProductUpdate} {c : Product}
    {rows rows2 : List Product}
    (h : put_product pid u rows = (.ok c, rows2)) :
    updatePayloadOk u = true ∧ update_product pid u rows = (.ok c, rows2) := by
  unfold put_product at h
  split at h
  · rename_i hok
    exact ⟨hok, h⟩
  · simp at h

theorem update_product_ok {pid : Nat} {u : ProductUpdate} {c : Product}
    {rows rows2 : List Product}
    (h : update_product pid u rows = (.ok c, rows2)) :
    ∃ r, rows.find? (fun x => x.id == pid) = some r
      ∧ quantity_check pid u r rows = (.ok c, rows2) := by
  unfold update_product at h
  split at h
  · simp at h
  · rename_i r hfind
    split at h
    · simp at h
    · split at h
      · simp at h
      · exact ⟨r, hfind, h⟩
    · exact ⟨r, hfind, h⟩

theorem quantity_check_ok {pid : Nat} {u : ProductUpdate} {r c : Product}
    {rows rows2 : List Product}
    (h : quantity_check pid u r rows = (.ok c, rows2)) :
    commit_update pid u r rows = (.ok c, rows2) := by
  unfold quantity_check at h
  split at h
  · simp at h
  · split at h
    · simp at h
    · exact h
  · exact h

theorem commit_update_ok {pid : Nat} {u : ProductUpdate} {r c : Product}
    {rows rows2 : List Product}
    (h : commit_update pid u r rows = (.ok c, rows2)) :
    u.name ≠ some none ∧ c = applyUpdate r u
      ∧ rows2 = replaceById pid c rows := by
  unfold commit_update at h
  split at h
  · simp at h
  · rename_i hn
    split at h
    · simp at h
    · injection h with h1 h2
      injection h1 with h1
      subst h1
      exact ⟨hn, rfl, h2.symm⟩

theorem updatePayloadOk_of_fields {u : ProductUpdate}
    (hpok : ∀ p, u.price = some (some p) → 0 < p)
    (hqok : ∀ q, u.quantity = some (some q) → 0 ≤ q) :
    updatePayloadOk u = true := by
  unfold updatePayloadOk
  refine Bool.and_eq_true_iff.mpr ⟨?_, ?_⟩
  · rcases hpe : u.price with _ | (_ | p) <;> simp [hpe]
    exact hpok p hpe
  · rcases hqe : u.quantity with _ | (_ | q) <;> simp [hqe]
    exact hqok q hqe

theorem quantity_check_to_commit {pid : Nat} {u : ProductUpdate} {r : Product}
    {rows : List Product}
    (hqok : ∀ q, u.quantity = some (some q) → 0 ≤ q)
    (hqnn : u.quantity ≠ some none) :
    quantity_check pid u r rows = commit_update pid u r rows := by
  unfold quantity_check
  rcases hqe : u.quantity with _ | (_ | q)
  · simp [hqe]
  · exact absurd hqe hqnn
  · simp only [hqe]
    rw [if_neg (not_lt.mpr (hqok q hqe))]

/-! ### Demonstration data used by witnesses and counterexamples -/

def rowWidget : Product := ⟨1, "Widget", 10, 5, none, none⟩

def rowGadget : Product := ⟨2, "Gadget", 20, 1, none, none⟩

def widgetCreate : ProductCreate := ⟨"Widget", 10, 5, none, none⟩

def spaceNameCreate : ProductCreate := ⟨" ", 1, 0, none, none⟩

def nameWipeUpdate : ProductUpdate := ⟨some (some ""), none, none, none, none⟩

def negPriceUpdate : ProductUpdate := ⟨none, some (some (-1)), none, none, none⟩

def nullPriceUpdate : ProductUpdate := ⟨none, some none, none, none, none⟩

def dupNameUpdate : ProductUpdate := ⟨some (some "Widget"), none, none, none, none⟩

/-! ### The claims -/

/-- Claim C1: for every create payload with a non-empty name, positive price,
non-negative quantity, and a name colliding with no stored record, the POST
operation succeeds, the returned record carries the submitted name, price,
quantity, description and category plus a fresh system-assigned id, and
exactly one new row is appended to storage. -/
theorem create_valid_payload_spec (p : ProductCreate) (rows : List Product)
    (hname : p.name ≠ "") (hprice : 0 < p.price) (hqty : 0 ≤ p.quantity)
    (hdup : ∀ r ∈ rows, r.name ≠ p.name) :
    ∃ c, post_product p rows = (.ok c, rows ++ [c])
      ∧ c.name = p.name ∧ c.price = p.price ∧ c.quantity = p.quantity
      ∧ c.description = p.description ∧ c.category = p.category
      ∧ ∀ r ∈ rows, r.id ≠ c.id := by
  have hok : createPayloadOk p = true := by
    unfold createPayloadOk
    simp [hprice, hqty]
  have hany : rows.any (fun r => r.name == p.name) = false :=
    List.any_eq_false.mpr fun x hx => by simpa using hdup x hx
  refine ⟨⟨newId rows, p.name, p.price, p.quantity, p.description, p.category⟩,
    ?_, rfl, rfl, rfl, rfl, rfl, ?_⟩
  · unfold post_product create_product
    rw [if_pos hok, if_neg hname, if_neg (by simp [hany])]
  · intro r hr
    exact Nat.ne_of_lt (id_lt_newId hr)

theorem create_valid_payload_spec_witness :
    ∃ c, post_product widgetCreate [] = (.ok c, [] ++ [c])
      ∧ c.name = widgetCreate.name ∧ c.price = widgetCreate.price
      ∧ c.quantity = widgetCreate.quantity
      ∧ c.description = widgetCreate.description
      ∧ c.category = widgetCreate.category
      ∧ ∀ r ∈ ([] : List Product), r.id ≠ c.id :=
  create_valid_payload_spec widgetCreate [] (by decide) (by decide)
    (by decide) (by simp)

/-- Claim C2: creating with a name already stored fails with status 400 and
detail "Product creation failed due to duplicate name.", the attempted write
is fully rolled back (the table is returned unchanged), and the table
contains exactly one record with that name. -/
theorem create_duplicate_name_spec (p : ProductCreate) (rows : List Product)
    (r : Product) (hnm : namesUnique rows) (hr : r ∈ rows)
    (heq : r.name = p.name) (hname : p.name ≠ "")
    (hprice : 0 < p.price) (hqty : 0 ≤ p.quantity) :
    post_product p rows
      = (.err 400 "Product creation failed due to duplicate name.", rows)
    ∧ rows.countP (fun x => x.name == p.name) = 1 := by
  have hok : createPayloadOk p = true := by
    unfold createPayloadOk
    simp [hprice, hqty]
  have hany : rows.any (fun x => x.name == p.name) = true :=
    List.any_eq_true.mpr ⟨r, hr, by simp [heq]⟩
  constructor
  · unfold post_product create_product
    rw [if_pos hok, if_neg hname, if_pos hany]
  · rw [← heq]
    exact countP_name_of_mem hnm hr

theorem create_duplicate_name_spec_witness :
    post_product ⟨"Widget", 15, 6, none, none⟩ [rowWidget]
      = (.err 400 "Product creation failed due to duplicate name.", [rowWidget])
    ∧ [rowWidget].countP (fun x => x.name == "Widget") = 1 :=
  create_duplicate_name_spec ⟨"Widget", 15, 6, none, none⟩ [rowWidget] rowWidget
    (by simp [namesUnique]) (by simp) rfl (by decide) (by norm_num) (by decide)

/-- Claim C3: a successful update mutates exactly the fields explicitly
supplied in the payload on the targeted record: every supplied field takes
the supplied value, every unsupplied field keeps its stored value, the
targeted row is replaced in place, and every record whose id differs from
the target survives in the table untouched. -/
theorem update_partial_fields_spec (pid : Nat) (u : ProductUpdate)
    (rows rows2 : List Product) (r c : Product)
    (hids : idsUnique rows) (hr : r ∈ rows) (hid : r.id = pid)
    (h : put_product pid u rows = (.ok c, rows2)) :
    c.id = r.id
    ∧ (u.name = none → c.name = r.name)
    ∧ (∀ n, u.name = some (some n) → c.name = n)
    ∧ (u.price = none → c.price = r.price)
    ∧ (∀ p, u.price = some (some p) → c.price = p)
    ∧ (u.quantity = none → c.quantity = r.quantity)
    ∧ (∀ q, u.quantity = some (some q) → c.quantity = q)
    ∧ (u.description = none → c.description = r.description)
    ∧ (∀ d, u.description = some d → c.description = d)
    ∧ (u.category = none → c.category = r.category)
    ∧ (∀ k, u.category = some k → c.category = k)
    ∧ rows2 = replaceById pid c rows
    ∧ (∀ x ∈ rows, x.id ≠ pid → x ∈ rows2)
    ∧ rows2.length = rows.length := by
  obtain ⟨hok, h2⟩ := put_product_ok h
  obtain ⟨r0, hfind, h3⟩ := update_product_ok h2
  have hr0 : r0 = r := by
    rw [find?_of_mem_id hids hr hid] at hfind
    exact (Option.some.inj hfind).symm
  subst hr0
  obtain ⟨hnn, hc, hrows⟩ := commit_update_ok (quantity_check_ok h3)
  subst hc
  refine ⟨rfl, ?_, ?_, ?_, ?_, ?_, ?_, ?_, ?_, ?_, ?_, hrows, ?_, ?_⟩
  · intro he
    simp [applyUpdate, he]
  · intro n he
    simp [applyUpdate, he]
  · intro he
    simp [applyUpdate, he]
  · intro p he
    simp [applyUpdate, he]
  · intro he
    simp [applyUpdate, he]
  · intro q he
    simp [applyUpdate, he]
  · intro he
    simp [applyUpdate, he]
  · intro d he
    simp [applyUpdate, he]
  · intro he
    simp [applyUpdate, he]
  · intro k he
    simp [applyUpdate, he]
  · intro x hx hxne
    rw [hrows]
    exact mem_replaceById_of_ne hx hxne
  · rw [hrows, replaceById_length]

def qtyUpdate : ProductUpdate := ⟨none, none, some (some 10), none, none⟩

theorem update_partial_fields_spec_witness :
    (⟨1, "Widget", 10, 10, none, none⟩ : Product).id = rowWidget.id
    ∧ (qtyUpdate.name = none
        → (⟨1, "Widget", 10, 10, none, none⟩ : Product).name = rowWidget.name)
    ∧ (∀ n, qtyUpdate.name = some (some n)
        → (⟨1, "Widget", 10, 10, none, none⟩ : Product).name = n)
    ∧ (qtyUpdate.price = none
        → (⟨1, "Widget", 10, 10, none, none⟩ : Product).price = rowWidget.price)
    ∧ (∀ p, qtyUpdate.price = some (some p)
        → (⟨1, "Widget", 10, 10, none, none⟩ : Product).price = p)
    ∧ (qtyUpdate.quantity = none
        → (⟨1, "Widget", 10, 10, none, none⟩ : Product).quantity = rowWidget.quantity)
    ∧ (∀ q, qtyUpdate.quantity = some (some q)
        → (⟨1, "Widget", 10, 10, none, none⟩ : Product).quantity = q)
    ∧ (qtyUpdate.description = none
        → (⟨1, "Widget", 10, 10, none, none⟩ : Product).description = rowWidget.description)
    ∧ (∀ d, qtyUpdate.description = some d
        → (⟨1, "Widget", 10, 10, none, none⟩ : Product).description = d)
    ∧ (qtyUpdate.category = none
        → (⟨1, "Widget", 10, 10, none, none⟩ : Product).category = rowWidget.category)
    ∧ (∀ k, qtyUpdate.category = some k
        → (⟨1, "Widget", 10, 10, none, none⟩ : Product).category = k)
    ∧ [⟨1, "Widget", 10, 10, none, none⟩, rowGadget]
        = replaceById 1 ⟨1, "Widget", 10, 10, none, none⟩ [rowWidget, rowGadget]
    ∧ (∀ x ∈ [rowWidget, rowGadget], x.id ≠ 1
        → x ∈ [(⟨1, "Widget", 10, 10, none, none⟩ : Product), rowGadget])
    ∧ ([(⟨1, "Widget", 10, 10, none, none⟩ : Product), rowGadget]).length
        = ([rowWidget, rowGadget]).length :=
  update_partial_fields_spec 1 qtyUpdate [rowWidget, rowGadget]
    [⟨1, "Widget", 10, 10, none, none⟩, rowGadget] rowWidget
    ⟨1, "Widget", 10, 10, none, none⟩
    (by simp [idsUnique, rowWidget, rowGadget]) (by simp) rfl (by decide)

/-- Claim C4 counterexample: the non-empty-name part of the invariant fails
in a reachable state: create "Widget", then update record 1 supplying the
empty string as name; update_product never validates the supplied name and
no UNIQUE violation occurs, so a row with an empty name is committed. -/
theorem reachable_empty_name_counterexample :
    ∃ rows, Reachable rows ∧ ∃ r ∈ rows, r.name = "" :=
  ⟨(put_product 1 nameWipeUpdate (post_product widgetCreate []).2).2,
   Reachable.update 1 nameWipeUpdate
     (Reachable.create widgetCreate Reachable.init),
   by decide⟩

/-- Claim C4 (amended): in every state reachable by any sequence of create,
update and delete operations, every stored row has a price strictly greater
than 0 and a quantity at least 0, and no two stored rows share the same
name. The non-empty-name part of the original claim is dropped: an update
can store an empty name (see the counterexample). -/
theorem reachable_rows_invariant (rows : List Product) (h : Reachable rows) :
    (∀ r ∈ rows, 0 < r.price ∧ 0 ≤ r.quantity)
    ∧ rows.Pairwise (fun a b => a.name ≠ b.name) := by
  obtain ⟨hpr, _, hnm⟩ := reachable_good h
  exact ⟨hpr, hnm⟩

theorem reachable_rows_invariant_witness :
    (∀ r ∈ (post_product widgetCreate []).2, 0 < r.price ∧ 0 ≤ r.quantity)
    ∧ (post_product widgetCreate []).2.Pairwise (fun a b => a.name ≠ b.name) :=
  reachable_rows_invariant _ (Reachable.create widgetCreate Reachable.init)

/-- Claim C5 counterexample: a PUT supplying price -1 on existing record 1 is
rejected by the request model with a 422 unprocessable-entity validation
error, not with status 400 and detail "Price must be greater than 0" as the
claim states; the handler branch carrying that message is unreachable for
non-null supplied prices. -/
theorem update_nonpositive_price_counterexample :
    put_product 1 negPriceUpdate [rowWidget]
      = (.err 422 "validation error", [rowWidget])
    ∧ (Outcome.err 422 "validation error" : Outcome Product)
      ≠ .err 400 "Price must be greater than 0" := by
  constructor
  · rfl
  · decide

/-- Claim C5 (amended): an update request on an existing record that supplies
a price less than or equal to 0 fails with a 422 unprocessable-entity
validation error raised by the request model before the handler runs, and
the table (hence the stored record) is left entirely unchanged. -/
theorem update_nonpositive_price_spec (pid : Nat) (u : ProductUpdate)
    (rows : List Product) (r : Product) (p : Rat)
    (hr : r ∈ rows) (hid : r.id = pid)
    (hpe : u.price = some (some p)) (hple : p ≤ 0) :
    put_product pid u rows = (.err 422 "validation error", rows) := by
  have hok : updatePayloadOk u = false := by
    unfold updatePayloadOk
    simp [hpe, not_lt.mpr hple]
  unfold put_product
  simp [hok]

theorem update_nonpositive_price_spec_witness :
    put_product 1 negPriceUpdate [rowWidget]
      = (.err 422 "validation error", [rowWidget]) :=
  update_nonpositive_price_spec 1 negPriceUpdate [rowWidget] rowWidget (-1)
    (by simp) rfl rfl (by norm_num)

/-- Claim C6 counterexample: a create whose payload name is the whitespace
string " " is not rejected: the handler only tests falsiness of the name,
a whitespace-only string is truthy, so the create succeeds and a row is
appended. -/
theorem create_whitespace_name_counterexample :
    post_product spaceNameCreate []
      = (.ok ⟨1, " ", 1, 0, none, none⟩, [⟨1, " ", 1, 0, none, none⟩])
    ∧ (post_product spaceNameCreate []).2 ≠ ([] : List Product) := by
  constructor
  · rfl
  · decide

/-- Claim C6 (amended): a create request whose payload supplies the empty
name (the only name the falsiness check catches) is rejected with status 400
and the distinct detail "Product name is required", before any insert, and
no row is added; whitespace-only non-empty names are not rejected. -/
theorem create_empty_name_spec (p : ProductCreate) (rows : List Product)
    (hname : p.name = "") (hprice : 0 < p.price) (hqty : 0 ≤ p.quantity) :
    post_product p rows = (.err 400 "Product name is required", rows) := by
  have hok : createPayloadOk p = true := by
    unfold createPayloadOk
    simp [hprice, hqty]
  unfold post_product create_product
  rw [if_pos hok, if_pos hname]

theorem create_empty_name_spec_witness :
    post_product ⟨"", 2, 3, none, none⟩ [rowWidget]
      = (.err 400 "Product name is required", [rowWidget]) :=
  create_empty_name_spec ⟨"", 2, 3, none, none⟩ [rowWidget] rfl
    (by norm_num) (by norm_num)

/-- Claim C7: an update of an existing record that supplies a name equal to
the name of a different stored record (the payload otherwise passing its
field checks) fails with status 400 and detail "Product update failed due to
integrity error.", and the table is returned exactly as it was before the
request. -/
theorem update_duplicate_name_spec (pid : Nat) (u : ProductUpdate)
    (rows : List Product) (r other : Product) (n : String)
    (hids : idsUnique rows) (hr : r ∈ rows) (hid : r.id = pid)
    (hn : u.name = some (some n))
    (hpok : ∀ p, u.price = some (some p) → 0 < p)
    (hpnn : u.price ≠ some none)
    (hqok : ∀ q, u.quantity = some (some q) → 0 ≤ q)
    (hqnn : u.quantity ≠ some none)
    (hother : other ∈ rows) (hoid : other.id ≠ pid) (honame : other.name = n) :
    put_product pid u rows
      = (.err 400 "Product update failed due to integrity error.", rows) := by
  have hok := updatePayloadOk_of_fields hpok hqok
  have hfind := find?_of_mem_id hids hr hid
  unfold put_product
  rw [if_pos hok]
  unfold update_product
  rw [hfind]
  have hname2 : (applyUpdate r u).name = n := by simp [applyUpdate, hn]
  have hany : rows.any
      (fun x => x.id != pid && x.name == (applyUpdate r u).name) = true :=
    List.any_eq_true.mpr ⟨other, hother, by simp [hoid, honame, hname2]⟩
  have hcommit : commit_update pid u r rows
      = (.err 400 "Product update failed due to integrity error.", rows) := by
    unfold commit_update
    rw [if_neg (by simp [hn]), if_pos hany]
  rcases hpe : u.price with _ | (_ | p)
  · simp only [hpe]
    rw [quantity_check_to_commit hqok hqnn, hcommit]
  · exact absurd hpe hpnn
  · simp only [hpe]
    rw [if_neg (not_le.mpr (hpok p hpe))]
    rw [quantity_check_to_commit hqok hqnn, hcommit]

theorem update_duplicate_name_spec_witness :
    put_product 2 dupNameUpdate [rowWidget, rowGadget]
      = (.err 400 "Product update failed due to integrity error.",
         [rowWidget, rowGadget]) :=
  update_duplicate_name_spec 2 dupNameUpdate [rowWidget, rowGadget]
    rowGadget rowWidget "Widget"
    (by simp [idsUnique, rowWidget, rowGadget]) (by simp) rfl rfl
    (by intro p hp; cases hp) (by simp [dupNameUpdate])
    (by intro q hq; cases hq) (by simp [dupNameUpdate])
    (by simp) (by decide) rfl

/-- Claim C8: deleting a stored id removes that record and reports success
with message "Product deleted successfully", every remaining row has a
different id so a subsequent get on that id returns 404 "Product not
found"; deleting an id with no stored record itself returns 404 "Product
not found". -/
theorem delete_then_get_spec (pid : Nat) (rows : List Product)
    (hids : idsUnique rows) :
    ((∃ r ∈ rows, r.id = pid) →
      delete_product pid rows
        = (.ok "Product deleted successfully", removeById pid rows)
      ∧ (∀ x ∈ removeById pid rows, x.id ≠ pid)
      ∧ get_product pid (removeById pid rows)
        = (.err 404 "Product not found", removeById pid rows))
    ∧ ((∀ r ∈ rows, r.id ≠ pid) →
      delete_product pid rows = (.err 404 "Product not found", rows)) := by
  constructor
  · rintro ⟨r, hr, hid⟩
    have hfind := find?_of_mem_id hids hr hid
    have hnone : ∀ x ∈ removeById pid rows, x.id ≠ pid :=
      fun x hx => removeById_id_ne hids hx
    refine ⟨?_, hnone, ?_⟩
    · unfold delete_product
      rw [hfind]
    · unfold get_product
      rw [List.find?_eq_none.mpr fun x hx => by simpa using hnone x hx]
  · intro habs
    unfold delete_product
    rw [List.find?_eq_none.mpr fun x hx => by simpa using habs x hx]

theorem delete_then_get_spec_witness :
    ((∃ r ∈ [rowWidget, rowGadget], r.id = 1) →
      delete_product 1 [rowWidget, rowGadget]
        = (.ok "Product deleted successfully",
           removeById 1 [rowWidget, rowGadget])
      ∧ (∀ x ∈ removeById 1 [rowWidget, rowGadget], x.id ≠ 1)
      ∧ get_product 1 (removeById 1 [rowWidget, rowGadget])
        = (.err 404 "Product not found", removeById 1 [rowWidget, rowGadget]))
    ∧ ((∀ r ∈ [rowWidget, rowGadget], r.id ≠ 1) →
      delete_product 1 [rowWidget, rowGadget]
        = (.err 404 "Product not found", [rowWidget, rowGadget])) :=
  delete_then_get_spec 1 [rowWidget, rowGadget]
    (by simp [idsUnique, rowWidget, rowGadget])

/-- Claim C9: with a supplied non-negative price filter the list operation
returns exactly the stored records whose price is at least the filter value;
without a filter it returns every stored record; when no record matches it
returns the empty list rather than an error; the table is never modified. -/
theorem list_price_filter_spec (rows : List Product) (x : Rat) (hx : 0 ≤ x) :
    (∃ l, list_products (some x) rows = (.ok l, rows)
      ∧ ∀ r, r ∈ l ↔ (r ∈ rows ∧ x ≤ r.price))
    ∧ list_products none rows = (.ok rows, rows)
    ∧ ((∀ r ∈ rows, r.price < x) →
      list_products (some x) rows = (.ok [], rows)) := by
  have hnneg : ¬ x < 0 := not_lt.mpr hx
  refine ⟨⟨rows.filter (fun r => decide (x ≤ r.price)), ?_, ?_⟩, ?_, ?_⟩
  · simp only [list_products]
    rw [if_neg hnneg]
    by_cases he : (rows.filter (fun r => decide (x ≤ r.price))).isEmpty = true
    · rw [if_pos he, List.isEmpty_iff.mp he]
    · rw [if_neg he]
  · intro r
    simp [List.mem_filter]
  · simp only [list_products]
    by_cases he : rows.isEmpty = true
    · rw [if_pos he, List.isEmpty_iff.mp he]
    · rw [if_neg he]
  · intro hnone
    have hfil : rows.filter (fun r => decide (x ≤ r.price)) = [] :=
      List.filter_eq_nil_iff.mpr fun a ha => by
        simpa using not_le.mpr (hnone a ha)
    simp only [list_products]
    rw [if_neg hnneg, hfil]
    rfl

theorem list_price_filter_spec_witness :
    (∃ l, list_products (some 0) [rowWidget] = (.ok l, [rowWidget])
      ∧ ∀ r, r ∈ l ↔ (r ∈ [rowWidget] ∧ 0 ≤ r.price))
    ∧ list_products none [rowWidget] = (.ok [rowWidget], [rowWidget])
    ∧ ((∀ r ∈ [rowWidget], r.price < 0) →
      list_products (some 0) [rowWidget] = (.ok [], [rowWidget])) :=
  list_price_filter_spec [rowWidget] 0 le_rfl

/-- Claim C10 is refuted by the code: a PUT whose body sets price to an
explicit JSON null passes the request model (pydantic skips the gt validator
on None), and the handler then evaluates the comparison of None with 0,
raising a TypeError that its except clauses (IntegrityError,
ValidationError) do not catch: the failure escapes the operation boundary as
an unhandled fault instead of being translated into an HTTP error
response. -/
theorem update_null_price_unhandled :
    put_product 1 nullPriceUpdate [rowWidget]
      = (.crash "TypeError: comparison of NoneType and int", [rowWidget]) := rfl

end InventoryApi
